import Mathlib

/-!
Shallow embedding of `src/website/src/main.rs` (a periodic website monitor)
and proofs of the specification's claims about it.

The Rust program has three functions:
* `check_website(url, timeout, retries)` — a retry loop around a blocking
  HTTP GET (`ureq::get(url).timeout(timeout).call()`), returning a
  `WebsiteStatus` record;
* `monitor_websites(urls, num_threads, timeout, retries, tx)` — spawns
  `num_threads` worker threads; worker `i` walks `urls.iter().enumerate()`
  and handles exactly the indices `index` with `index % num_threads == i`,
  sending each resulting record on the channel right after the check;
* `periodic_monitoring(...)` — an infinite loop: create a channel, spawn one
  `monitor_websites` round, drain the receiver until the channel closes
  (which happens only after `monitor_websites` has joined every worker and
  dropped its sender), then sleep for `interval`, then repeat.

The HTTP transport (`ureq`) is the external dependency; it is modelled as an
oracle giving, for each url, timeout and attempt index, either an HTTP status
code (`.ok code` — any code, including 4xx/5xx: `res.status()` is returned
as-is) or a transport-level error with a description (`.error msg`, mirroring
`err.to_string()`).  Wall-clock time is modelled by an abstract `Nat` clock:
the oracle also gives the duration each attempt consumes, `Instant::now()` is
the clock value at the start of the check, and `start_time.elapsed()` is the
current clock value minus the start value.
-/

namespace Website

/-- Mirrors Rust `struct WebsiteStatus { url, status: Result<u16, String>,
response_time: Duration, timestamp: DateTime<Utc> }`.  Durations and
timestamps are abstract `Nat` clock values. -/
structure WebsiteStatus where
  url : String
  status : Except String Nat
  response_time : Nat
  timestamp : Nat
deriving Repr

/-- The external HTTP transport (`ureq`): for a url, a per-attempt timeout and
an attempt index (0-based, counting the calls made for one check), `result`
gives the outcome of that attempt and `dur` the wall-clock time it consumes. -/
structure Transport where
  result : String → Nat → Nat → Except String Nat
  dur : String → Nat → Nat → Nat

/-- The error description carried by a transport failure (`err.to_string()`). -/
def errDesc : Except String Nat → String
  | .error e => e
  | .ok _ => ""

/-- Did this attempt yield an HTTP response (`Ok(res)` in the Rust match)? -/
def isOkE : Except String Nat → Bool
  | .ok _ => true
  | .error _ => false

/-- The `while attempts <= retries` loop of `check_website`, for one fixed url
and timeout whose transport behaviour is `resp`/`dur` (attempt index ↦
outcome / duration).  State: `attempts` is the Rust `attempts` counter
(which equals the index of the attempt made in the current iteration) and
`now` is the current clock value.  Returns `((record, calls), fallback)`
where `calls` is the total number of HTTP calls made and `fallback` is `true`
iff the value was produced by the post-loop
`WebsiteStatus { status: Err("Max retries reached"), .. }` fallback rather
than by a `return` inside the loop. -/
def checkLoop (resp : Nat → Except String Nat) (dur : Nat → Nat) (url : String)
    (retries : Nat) (start_time timestamp : Nat) (attempts now : Nat) :
    (WebsiteStatus × Nat) × Bool :=
  if _h : attempts ≤ retries then
    match resp attempts with
    | .ok s =>
        ((⟨url, .ok s, now + dur attempts - start_time, timestamp⟩, attempts + 1), false)
    | .error e =>
        if h2 : attempts < retries then
          checkLoop resp dur url retries start_time timestamp (attempts + 1) (now + dur attempts)
        else
          ((⟨url, .error e, now + dur attempts - start_time, timestamp⟩, attempts + 1), false)
  else
    ((⟨url, .error "Max retries reached", now - start_time, timestamp⟩, attempts), true)
termination_by retries + 1 - attempts
decreasing_by omega

/-- `check_website(url, timeout, retries)` run against transport `t`, started
at clock value `t0` (`let start_time = Instant::now(); let timestamp =
Utc::now();` both capture `t0`, once, before the first attempt).  Returns the
record together with the total number of HTTP calls made. -/
def check_website (t : Transport) (url : String) (timeout retries t0 : Nat) :
    WebsiteStatus × Nat :=
  (checkLoop (t.result url timeout) (t.dur url timeout) url retries t0 t0 0 t0).1

/-! ## Dispatcher (`monitor_websites`)

Worker `i`'s loop is
`for (index, url) in urls.iter().enumerate() { if index % num_threads == i { ... } }`:
it walks the whole enumerated list in order and acts exactly on the pairs
whose index lies in its residue class. -/

/-- The `(index, url)` pairs worker `i` acts on, in the order its `for` loop
meets them: `urls.iter().enumerate()` filtered by `index % num_threads == i`. -/
def workerEnum (urls : List String) (num_threads i : Nat) : List (Nat × String) :=
  urls.enum.filter (fun p => p.1 % num_threads == i)

/-- Just the indices of `workerEnum`, as a function of the list length:
the set of indices `j < L` with `j % num_threads == i`. -/
def workerIndices (num_threads i L : Nat) : List Nat :=
  (List.range L).filter (fun index => index % num_threads == i)

/-- The stream of records worker `i` sends on the channel, in send order:
its `for` loop checks each of its assigned urls sequentially and calls
`tx.send(status)` immediately after each `check_website` returns.  (Each
check is modelled as starting at clock value 0; the claims about the
dispatcher do not depend on the clock.) -/
def workerSends (t : Transport) (urls : List String) (num_threads i timeout retries : Nat) :
    List WebsiteStatus :=
  (workerEnum urls num_threads i).map (fun p => (check_website t p.2 timeout retries 0).1)

/-- `monitor_websites(urls, num_threads, timeout, retries, tx)`: spawns one
thread per `i in 0..num_threads` and joins them all.  Modelled as the list of
per-worker send streams (the channel interleaves them; order across workers
is not modelled).  Note there is no validation of `num_threads` anywhere:
for `num_threads = 0` the spawn loop body never runs and the function simply
returns with no worker having been spawned and nothing sent. -/
def monitor_websites (t : Transport) (urls : List String)
    (num_threads timeout retries : Nat) : List (List WebsiteStatus) :=
  (List.range num_threads).map (fun i => workerSends t urls num_threads i timeout retries)

/-! ## Scheduler (`periodic_monitoring`)

`periodic_monitoring` loops forever: create a channel, spawn a thread running
`monitor_websites` (round `n`), drain the receiver with `for status in rx`
— which ends only when the channel is closed (every worker's `tx` clone and
the round thread's own `tx` have been dropped, i.e. all workers have finished
and been joined) and every buffered record has been delivered — then
`thread::sleep(interval)`, then start round `n + 1`.

This is modelled as a labelled transition system.  A state carries the round
counter, the scheduler's phase, the multiset of still-running workers (each
with the number of records it still has to send) and the number of records
buffered in the channel. -/

/-- Scheduler phase: about to start a round's dispatch, draining the round's
receiver, or sleeping for `interval`. -/
inductive Phase where
  | start
  | drain
  | sleep
deriving Repr, DecidableEq

/-- One scheduler state: current round, phase, remaining sends of each
still-running worker of the round, and records buffered in the channel. -/
structure SchedState where
  round : Nat
  phase : Phase
  workers : List Nat
  queue : Nat
deriving Repr, DecidableEq

/-- Observable events of `periodic_monitoring`. -/
inductive Label where
  | dispatch (n : Nat)
  | send
  | finish
  | recv (n : Nat)
  | complete (n : Nat)
  | wake (n : Nat)
deriving Repr, DecidableEq

/-- Small-step semantics of the scheduler loop, parametrised by the sends
each freshly spawned round's workers will perform (`initW`, one entry per
worker thread).
* `dispatch`: the loop body creates a channel and spawns the round's workers;
* `send`: some running worker finishes a check and does `tx.send(status)`;
* `finish`: a worker with nothing left to send terminates (its `tx` clone is
  dropped);
* `recv`: `for status in rx` delivers one buffered record;
* `complete`: all workers have terminated and the channel is drained, so the
  channel is closed and the `for status in rx` loop ends;
* `wake`: `thread::sleep(interval)` returns and the next loop iteration
  begins. -/
inductive Step (initW : List Nat) : SchedState → Label → SchedState → Prop where
  | dispatch (n : Nat) :
      Step initW ⟨n, .start, [], 0⟩ (.dispatch n) ⟨n, .drain, initW, 0⟩
  | send (n k q : Nat) (ws₁ ws₂ : List Nat) :
      Step initW ⟨n, .drain, ws₁ ++ (k + 1) :: ws₂, q⟩ .send
        ⟨n, .drain, ws₁ ++ k :: ws₂, q + 1⟩
  | finish (n q : Nat) (ws₁ ws₂ : List Nat) :
      Step initW ⟨n, .drain, ws₁ ++ 0 :: ws₂, q⟩ .finish ⟨n, .drain, ws₁ ++ ws₂, q⟩
  | recv (n q : Nat) (ws : List Nat) :
      Step initW ⟨n, .drain, ws, q + 1⟩ (.recv n) ⟨n, .drain, ws, q⟩
  | complete (n : Nat) :
      Step initW ⟨n, .drain, [], 0⟩ (.complete n) ⟨n, .sleep, [], 0⟩
  | wake (n : Nat) :
      Step initW ⟨n, .sleep, [], 0⟩ (.wake n) ⟨n + 1, .start, [], 0⟩

/-- A finite run of the scheduler: `Run initW s ls s'` means the system goes
from state `s` to state `s'` performing exactly the events `ls` in order. -/
inductive Run (initW : List Nat) : SchedState → List Label → SchedState → Prop where
  | nil (s : SchedState) : Run initW s [] s
  | cons {s s' s'' : SchedState} {l : Label} {ls : List Label} :
      Step initW s l s' → Run initW s' ls s'' → Run initW s (l :: ls) s''

/-- The scheduler's starting state: about to dispatch round 0. -/
def initState : SchedState := ⟨0, .start, [], 0⟩

/-- Progress measure: rounds are traversed phase by phase; `send`, `finish`
and `recv` happen within the `drain` phase and do not advance it. -/
def phaseIdx : Phase → Nat
  | .start => 0
  | .drain => 1
  | .sleep => 2

/-- Linear progress of a scheduler state. -/
def progress (s : SchedState) : Nat := 3 * s.round + phaseIdx s.phase

/-! ## Lemmas about the retry loop -/

/-- Unfolding: an attempt that yields an HTTP response returns at once. -/
theorem checkLoop_ok {resp : Nat → Except String Nat} {dur : Nat → Nat} {url : String}
    {retries st ts attempts now s : Nat}
    (hle : attempts ≤ retries) (hok : resp attempts = .ok s) :
    checkLoop resp dur url retries st ts attempts now =
      ((⟨url, .ok s, now + dur attempts - st, ts⟩, attempts + 1), false) := by
  rw [checkLoop]
  simp [hle, hok]

/-- Unfolding: a transport failure with attempts remaining retries. -/
theorem checkLoop_err_retry {resp : Nat → Except String Nat} {dur : Nat → Nat} {url : String}
    {retries st ts attempts now : Nat} {e : String}
    (hlt : attempts < retries) (herr : resp attempts = .error e) :
    checkLoop resp dur url retries st ts attempts now =
      checkLoop resp dur url retries st ts (attempts + 1) (now + dur attempts) := by
  rw [checkLoop]
  simp [Nat.le_of_lt hlt, herr, hlt]

/-- Unfolding: a transport failure on the last allowed attempt returns the
error's description. -/
theorem checkLoop_err_final {resp : Nat → Except String Nat} {dur : Nat → Nat} {url : String}
    {retries st ts now : Nat} {e : String}
    (herr : resp retries = .error e) :
    checkLoop resp dur url retries st ts retries now =
      ((⟨url, .error e, now + dur retries - st, ts⟩, retries + 1), false) := by
  rw [checkLoop]
  simp [herr]

/-- A `false` from `isOkE` is a transport error. -/
theorem isOkE_false_iff {x : Except String Nat} :
    isOkE x = false ↔ ∃ e, x = .error e := by
  cases x <;> simp [isOkE]

/-- Main invariant of the retry loop, by induction on the remaining retry
budget: started at any `attempts ≤ retries`, the loop returns from inside
(never through the fallback), keeps the `timestamp` captured before the loop,
makes between `attempts + 1` and `retries + 1` calls in total, and reports as
`response_time` the clock advance over all calls it made, measured from
`start_time`. -/
theorem checkLoop_spec (resp : Nat → Except String Nat) (dur : Nat → Nat) (url : String)
    (retries st ts : Nat) :
    ∀ k attempts now, retries - attempts ≤ k → attempts ≤ retries →
      ∃ rec n, checkLoop resp dur url retries st ts attempts now = ((rec, n), false) ∧
        rec.url = url ∧ rec.timestamp = ts ∧ attempts < n ∧ n ≤ retries + 1 ∧
        rec.response_time = now + (∑ i ∈ Finset.Ico attempts n, dur i) - st := by
  intro k
  induction k with
  | zero =>
      intro attempts now hk hle
      have ha : attempts = retries := by omega
      subst ha
      cases hres : resp attempts with
      | ok s =>
          refine ⟨_, _, checkLoop_ok hle hres, rfl, rfl, Nat.lt_succ_self _,
            le_refl _, ?_⟩
          rw [Finset.sum_Ico_succ_top (le_refl attempts), Finset.Ico_self,
            Finset.sum_empty, Nat.zero_add]
      | error e =>
          refine ⟨_, _, checkLoop_err_final hres, rfl, rfl, Nat.lt_succ_self _,
            le_refl _, ?_⟩
          rw [Finset.sum_Ico_succ_top (le_refl attempts), Finset.Ico_self,
            Finset.sum_empty, Nat.zero_add]
  | succ k ih =>
      intro attempts now hk hle
      cases hres : resp attempts with
      | ok s =>
          refine ⟨_, _, checkLoop_ok hle hres, rfl, rfl, Nat.lt_succ_self _,
            by omega, ?_⟩
          rw [Finset.sum_Ico_succ_top (le_refl attempts), Finset.Ico_self,
            Finset.sum_empty, Nat.zero_add]
      | error e =>
          by_cases hlt : attempts < retries
          · rw [checkLoop_err_retry hlt hres]
            obtain ⟨rec, n, heq, hurl, hts, hn1, hn2, hrt⟩ :=
              ih (attempts + 1) (now + dur attempts) (by omega) (by omega)
            refine ⟨rec, n, heq, hurl, hts, by omega, hn2, ?_⟩
            rw [hrt, Finset.sum_eq_sum_Ico_succ_bot (show attempts < n by omega)]
            omega
          · have ha : attempts = retries := by omega
            subst ha
            refine ⟨_, _, checkLoop_err_final hres, rfl, rfl, Nat.lt_succ_self _,
              le_refl _, ?_⟩
            rw [Finset.sum_Ico_succ_top (le_refl attempts), Finset.Ico_self,
              Finset.sum_empty, Nat.zero_add]

/-- If every attempt from `attempts` through `retries` fails at the
transport level, the loop makes all remaining calls and reports the last
attempt's error description. -/
theorem checkLoop_all_err (resp : Nat → Except String Nat) (dur : Nat → Nat) (url : String)
    (retries st ts : Nat) :
    ∀ k attempts now, retries - attempts ≤ k → attempts ≤ retries →
      (∀ i, attempts ≤ i → i ≤ retries → isOkE (resp i) = false) →
      ∃ rec, checkLoop resp dur url retries st ts attempts now = ((rec, retries + 1), false) ∧
        rec.status = .error (errDesc (resp retries)) := by
  intro k
  induction k with
  | zero =>
      intro attempts now hk hle hfail
      have ha : attempts = retries := by omega
      subst ha
      obtain ⟨e, he⟩ := isOkE_false_iff.mp (hfail attempts (le_refl _) (le_refl _))
      exact ⟨_, checkLoop_err_final he, by rw [he]; rfl⟩
  | succ k ih =>
      intro attempts now hk hle hfail
      by_cases hlt : attempts < retries
      · obtain ⟨e, he⟩ := isOkE_false_iff.mp (hfail attempts (le_refl _) hle)
        rw [checkLoop_err_retry hlt he]
        exact ih (attempts + 1) (now + dur attempts) (by omega) (by omega)
          (fun i h1 h2 => hfail i (by omega) h2)
      · have ha : attempts = retries := by omega
        subst ha
        obtain ⟨e, he⟩ := isOkE_false_iff.mp (hfail attempts (le_refl _) (le_refl _))
        exact ⟨_, checkLoop_err_final he, by rw [he]; rfl⟩

/-- If the attempts before `a` all fail at the transport level and attempt
`a ≤ retries` yields an HTTP response with status `s`, the loop returns that
status after exactly `a + 1` calls. -/
theorem checkLoop_first_ok (resp : Nat → Except String Nat) (dur : Nat → Nat) (url : String)
    (retries st ts a s : Nat) (ha : a ≤ retries) (hok : resp a = .ok s) :
    ∀ k attempts now, a - attempts ≤ k → attempts ≤ a →
      (∀ i, attempts ≤ i → i < a → isOkE (resp i) = false) →
      ∃ rec, checkLoop resp dur url retries st ts attempts now = ((rec, a + 1), false) ∧
        rec.status = .ok s := by
  intro k
  induction k with
  | zero =>
      intro attempts now hk hle hfail
      have heq : attempts = a := by omega
      subst heq
      exact ⟨_, checkLoop_ok (by omega) hok, rfl⟩
  | succ k ih =>
      intro attempts now hk hle hfail
      by_cases hlt : attempts < a
      · obtain ⟨e, he⟩ := isOkE_false_iff.mp (hfail attempts (le_refl _) hlt)
        rw [checkLoop_err_retry (by omega) he]
        exact ih (attempts + 1) (now + dur attempts) (by omega) (by omega)
          (fun i h1 h2 => hfail i (by omega) h2)
      · have heq : attempts = a := by omega
        subst heq
        exact ⟨_, checkLoop_ok (by omega) hok, rfl⟩

/-! ## The claims about the Prober (`check_website`) -/

/-- C1: for every url, timeout and retries, whenever an attempt's HTTP call
yields an HTTP response — any status code, including 4xx/5xx — `check_website`
immediately returns a record whose status is `Ok` carrying that status code
as-is, without retrying: if the attempts before attempt `a` failed at the
transport level and attempt `a` (with `a ≤ retries`) yields a response with
code `s`, the returned status is `Ok s` and exactly `a + 1` calls are made. -/
theorem check_website_response_is_success (t : Transport) (url : String)
    (timeout retries t0 a s : Nat) (ha : a ≤ retries)
    (hfail : ∀ i, i < a → isOkE (t.result url timeout i) = false)
    (hok : t.result url timeout a = .ok s) :
    (check_website t url timeout retries t0).1.status = .ok s ∧
    (check_website t url timeout retries t0).2 = a + 1 := by
  obtain ⟨rec, heq, hst⟩ := checkLoop_first_ok (t.result url timeout) (t.dur url timeout)
    url retries t0 t0 a s ha hok a 0 t0 (by omega) (by omega) (fun i _ h2 => hfail i h2)
  unfold check_website
  rw [heq]
  exact ⟨hst, rfl⟩

/-- Witness for C1: a transport whose attempt 0 is refused and whose attempt 1
answers with the HTTP error status 503; with `retries = 3` the check returns
`Ok 503` after exactly 2 calls. -/
theorem check_website_response_is_success_witness :
    (1 ≤ 3 ∧ (∀ i, i < 1 →
        isOkE ((Transport.mk
          (fun _ _ i => if i = 0 then .error "connection refused" else .ok 503)
          (fun _ _ _ => 1)).result "https://a.test" 5 i) = false) ∧
      (Transport.mk
          (fun _ _ i => if i = 0 then .error "connection refused" else .ok 503)
          (fun _ _ _ => 1)).result "https://a.test" 5 1 = .ok 503) ∧
    ((check_website (Transport.mk
          (fun _ _ i => if i = 0 then .error "connection refused" else .ok 503)
          (fun _ _ _ => 1)) "https://a.test" 5 3 0).1.status = .ok 503 ∧
      (check_website (Transport.mk
          (fun _ _ i => if i = 0 then .error "connection refused" else .ok 503)
          (fun _ _ _ => 1)) "https://a.test" 5 3 0).2 = 1 + 1) :=
  ⟨⟨by decide, by decide, rfl⟩,
    check_website_response_is_success _ "https://a.test" 5 3 0 1 503
      (by decide) (by decide) rfl⟩

/-- C2: for every url and timeout, if the transport fails on every attempt,
`check_website` with `retries` makes exactly `retries + 1` HTTP calls and
returns a record whose status is the `Err` carrying the underlying (last)
error's description. -/
theorem check_website_all_fail (t : Transport) (url : String)
    (timeout retries t0 : Nat)
    (hfail : ∀ i, i ≤ retries → isOkE (t.result url timeout i) = false) :
    (check_website t url timeout retries t0).2 = retries + 1 ∧
    (check_website t url timeout retries t0).1.status =
      .error (errDesc (t.result url timeout retries)) := by
  obtain ⟨rec, heq, hst⟩ := checkLoop_all_err (t.result url timeout) (t.dur url timeout)
    url retries t0 t0 retries 0 t0 (by omega) (Nat.zero_le _) (fun i _ h2 => hfail i h2)
  unfold check_website
  rw [heq]
  exact ⟨rfl, hst⟩

/-- Witness for C2: a transport that times out on every attempt; with
`retries = 2` the check makes exactly 3 calls and reports the last timeout's
description. -/
theorem check_website_all_fail_witness :
    (∀ i, i ≤ 2 →
        isOkE ((Transport.mk (fun _ _ i => .error ("timed out on attempt " ++ toString i))
          (fun _ _ _ => 1)).result "https://b.test" 5 i) = false) ∧
    ((check_website (Transport.mk
          (fun _ _ i => .error ("timed out on attempt " ++ toString i))
          (fun _ _ _ => 1)) "https://b.test" 5 2 0).2 = 2 + 1 ∧
      (check_website (Transport.mk
          (fun _ _ i => .error ("timed out on attempt " ++ toString i))
          (fun _ _ _ => 1)) "https://b.test" 5 2 0).1.status =
        .error (errDesc ((Transport.mk
          (fun _ _ i => .error ("timed out on attempt " ++ toString i))
          (fun _ _ _ => 1)).result "https://b.test" 5 2))) :=
  ⟨by decide, check_website_all_fail _ "https://b.test" 5 2 0 (by decide)⟩

/-- C3: for every url and timeout, if the transport fails on the first `k`
attempts with `k < retries` and then yields a response, `check_website`
returns a record whose status is a success (`Ok`) and makes exactly `k + 1`
HTTP calls in total. -/
theorem check_website_recovers_after_k_failures (t : Transport) (url : String)
    (timeout retries t0 k s : Nat) (hk : k < retries)
    (hfail : ∀ i, i < k → isOkE (t.result url timeout i) = false)
    (hok : t.result url timeout k = .ok s) :
    isOkE (check_website t url timeout retries t0).1.status = true ∧
    (check_website t url timeout retries t0).2 = k + 1 := by
  obtain ⟨rec, heq, hst⟩ := checkLoop_first_ok (t.result url timeout) (t.dur url timeout)
    url retries t0 t0 k s (Nat.le_of_lt hk) hok k 0 t0 (by omega) (by omega)
    (fun i _ h2 => hfail i h2)
  unfold check_website
  rw [heq, hst]
  exact ⟨rfl, rfl⟩

/-- Witness for C3: a transport that fails twice then answers 200; with
`retries = 3` the check succeeds after exactly 3 calls. -/
theorem check_website_recovers_after_k_failures_witness :
    (2 < 3 ∧ (∀ i, i < 2 →
        isOkE ((Transport.mk (fun _ _ i => if i < 2 then .error "boom" else .ok 200)
          (fun _ _ _ => 1)).result "https://c.test" 5 i) = false) ∧
      (Transport.mk (fun _ _ i => if i < 2 then .error "boom" else .ok 200)
          (fun _ _ _ => 1)).result "https://c.test" 5 2 = .ok 200) ∧
    (isOkE (check_website (Transport.mk
          (fun _ _ i => if i < 2 then .error "boom" else .ok 200)
          (fun _ _ _ => 1)) "https://c.test" 5 3 0).1.status = true ∧
      (check_website (Transport.mk
          (fun _ _ i => if i < 2 then .error "boom" else .ok 200)
          (fun _ _ _ => 1)) "https://c.test" 5 3 0).2 = 2 + 1) :=
  ⟨⟨by decide, by decide, rfl⟩,
    check_website_recovers_after_k_failures _ "https://c.test" 5 3 0 2 200
      (by decide) (by decide) rfl⟩

/-- C6: the post-loop fallback `Err("Max retries reached")` of `check_website`
is unreachable: for every url, timeout, retries, start clock and every
sequence of transport outcomes, the loop resolves by an in-loop `return`
(the fallback flag of `checkLoop`, started as `check_website` starts it,
is always `false`). -/
theorem check_website_fallback_unreachable (t : Transport) (url : String)
    (timeout retries t0 : Nat) :
    (checkLoop (t.result url timeout) (t.dur url timeout) url retries t0 t0 0 t0).2 =
      false := by
  obtain ⟨rec, n, heq, _⟩ := checkLoop_spec (t.result url timeout) (t.dur url timeout)
    url retries t0 t0 retries 0 t0 (by omega) (Nat.zero_le _)
  rw [heq]

/-- C9: for every call, the returned record's `timestamp` is the clock value
captured once before the first attempt, and its `response_time` is the total
clock advance over all calls made (all failed retries included, never reset
per attempt), measured from before the first attempt. -/
theorem check_website_timing (t : Transport) (url : String) (timeout retries t0 : Nat) :
    (check_website t url timeout retries t0).1.timestamp = t0 ∧
    (check_website t url timeout retries t0).1.response_time =
      ∑ i ∈ Finset.range (check_website t url timeout retries t0).2,
        t.dur url timeout i := by
  obtain ⟨rec, n, heq, hurl, hts, hn1, hn2, hrt⟩ :=
    checkLoop_spec (t.result url timeout) (t.dur url timeout) url retries t0 t0
      retries 0 t0 (by omega) (Nat.zero_le _)
  unfold check_website
  rw [heq]
  refine ⟨hts, ?_⟩
  show rec.response_time = ∑ i ∈ Finset.range n, t.dur url timeout i
  rw [hrt, Finset.range_eq_Ico]
  omega

/-! ## The claims about the Dispatcher (`monitor_websites`) -/

/-- C4: for every `num_threads ≥ 1` and every endpoint-list length `L`, the
partition rule of `monitor_websites` (worker `i` handles exactly the indices
`j` with `j % num_threads == i`) assigns every index `0..L-1` to exactly one
worker: the assignment is total and the workers' subsets are pairwise
disjoint. -/
theorem partition_total_disjoint (num_threads L : Nat) (h : 1 ≤ num_threads) :
    ∀ j, j < L → ∃! i, i < num_threads ∧ j ∈ workerIndices num_threads i L := by
  intro j hj
  refine ⟨j % num_threads, ⟨Nat.mod_lt j h, ?_⟩, ?_⟩
  · simp [workerIndices, List.mem_filter, List.mem_range, hj]
  · rintro i ⟨hi, hmem⟩
    simp [workerIndices, List.mem_filter, List.mem_range] at hmem
    omega

/-- Witness for C4, the spec's scenario: three endpoints and two workers;
every index `0..2` belongs to exactly one of the two workers. -/
theorem partition_total_disjoint_witness :
    1 ≤ 2 ∧ ∀ j, j < 3 → ∃! i, i < 2 ∧ j ∈ workerIndices 2 i 3 :=
  ⟨by decide, partition_total_disjoint 2 3 (by decide)⟩

/-- C8: within one round, worker `i` walks its assigned `(index, url)` pairs
strictly sequentially in ascending index order (its `for` loop filters the
enumerated url list), and `workerSends` maps `check_website` over exactly that
list, sending each record immediately after its check — so the indices
underlying one worker's output stream are strictly increasing (FIFO, never
reordered). -/
theorem worker_stream_ascending (urls : List String) (num_threads i : Nat) :
    List.Pairwise (· < ·) ((workerEnum urls num_threads i).map Prod.fst) := by
  have hsub : List.Sublist (workerEnum urls num_threads i) urls.enum :=
    List.filter_sublist _
  have hsub2 : List.Sublist ((workerEnum urls num_threads i).map Prod.fst)
      (urls.enum.map Prod.fst) := hsub.map _
  rw [List.enum_map_fst] at hsub2
  exact List.Pairwise.sublist hsub2 (List.pairwise_lt_range _)

/-- C10: for `num_threads = 0`, `monitor_websites` spawns no worker threads
(the spawn loop runs over `0..0`), so the partition test is never evaluated,
no checks run, zero records are sent, and the function returns normally with
an empty result stream. -/
theorem monitor_websites_zero_workers (t : Transport) (urls : List String)
    (timeout retries : Nat) :
    monitor_websites t urls 0 timeout retries = [] ∧
    (monitor_websites t urls 0 timeout retries).flatten = [] := by
  constructor <;> simp [monitor_websites]

/-! ## The claims about the Scheduler (`periodic_monitoring`) -/

/-- Each step moves the progress measure forward by at most one; `send`,
`finish` and `recv` leave it unchanged. -/
theorem step_progress {initW : List Nat} {s s' : SchedState} {l : Label}
    (h : Step initW s l s') :
    progress s ≤ progress s' ∧ progress s' ≤ progress s + 1 := by
  cases h <;> (simp [progress, phaseIdx]; try omega)

/-- Progress never decreases along a run. -/
theorem run_progress_mono {initW : List Nat} {s s' : SchedState} {ls : List Label}
    (h : Run initW s ls s') : progress s ≤ progress s' := by
  induction h with
  | nil _ => exact le_refl _
  | cons hstep _ ih => exact le_trans (step_progress hstep).1 ih

/-- A run that crosses the progress boundary `3n + 2` must contain round `n`'s
completion event: only `complete n` moves progress from `3n + 1` to `3n + 2`. -/
theorem run_crossing_complete {initW : List Nat} (n : Nat) :
    ∀ s ls s', Run initW s ls s' → progress s < 3 * n + 2 →
      3 * n + 2 ≤ progress s' → Label.complete n ∈ ls := by
  intro s ls s' h
  induction h with
  | nil _ => intro h1 h2; omega
  | @cons a b c l ls hstep hrun ih =>
      intro h1 h2
      by_cases hmid : 3 * n + 2 ≤ progress b
      · have hp := step_progress hstep
        have h3 : progress a = 3 * n + 1 := by omega
        cases hstep with
        | dispatch m => simp [progress, phaseIdx] at h3; omega
        | send m k q ws₁ ws₂ => simp [progress, phaseIdx] at h3 hmid; omega
        | finish m q ws₁ ws₂ => simp [progress, phaseIdx] at h3 hmid; omega
        | recv m q ws => simp [progress, phaseIdx] at h3 hmid; omega
        | complete m =>
            simp [progress, phaseIdx] at h3
            have hm : m = n := by omega
            subst hm
            exact List.mem_cons_self _ _
        | wake m => simp [progress, phaseIdx] at h3; omega
      · exact List.mem_cons_of_mem _ (ih (by omega) h2)

/-- A run that crosses the progress boundary `3n + 3` must contain round `n`'s
wake-up event: only `wake n` moves progress from `3n + 2` to `3n + 3`. -/
theorem run_crossing_wake {initW : List Nat} (n : Nat) :
    ∀ s ls s', Run initW s ls s' → progress s < 3 * n + 3 →
      3 * n + 3 ≤ progress s' → Label.wake n ∈ ls := by
  intro s ls s' h
  induction h with
  | nil _ => intro h1 h2; omega
  | @cons a b c l ls hstep hrun ih =>
      intro h1 h2
      by_cases hmid : 3 * n + 3 ≤ progress b
      · have hp := step_progress hstep
        have h3 : progress a = 3 * n + 2 := by omega
        cases hstep with
        | dispatch m => simp [progress, phaseIdx] at h3; omega
        | send m k q ws₁ ws₂ => simp [progress, phaseIdx] at h3 hmid; omega
        | finish m q ws₁ ws₂ => simp [progress, phaseIdx] at h3 hmid; omega
        | recv m q ws => simp [progress, phaseIdx] at h3 hmid; omega
        | complete m => simp [progress, phaseIdx] at h3; omega
        | wake m =>
            simp [progress, phaseIdx] at h3
            have hm : m = n := by omega
            subst hm
            exact List.mem_cons_self _ _
      · exact List.mem_cons_of_mem _ (ih (by omega) h2)

/-- A run whose event list splits as `ls₁ ++ l :: ls₂` passes through a state
where it performs `l`. -/
theorem run_append_split {initW : List Nat} :
    ∀ (ls₁ : List Label) (s : SchedState) (ls₂ : List Label) (s' : SchedState)
      (l : Label), Run initW s (ls₁ ++ l :: ls₂) s' →
      ∃ t t', Run initW s ls₁ t ∧ Step initW t l t' ∧ Run initW t' ls₂ s' := by
  intro ls₁
  induction ls₁ with
  | nil =>
      intro s ls₂ s' l h
      cases h with
      | cons hstep hrun => exact ⟨_, _, Run.nil _, hstep, hrun⟩
  | cons a as ih =>
      intro s ls₂ s' l h
      cases h with
      | cons hstep hrun =>
          obtain ⟨t, t', h1, h2, h3⟩ := ih _ _ _ _ hrun
          exact ⟨t, t', Run.cons hstep h1, h2, h3⟩

/-- The dispatch of round `m` happens from the state that is about to start
round `m`. -/
theorem step_dispatch_progress {initW : List Nat} {s s' : SchedState} {m : Nat}
    (h : Step initW s (.dispatch m) s') : progress s = 3 * m := by
  cases h
  simp [progress, phaseIdx]

/-- C7: the scheduler's rounds never overlap: in every run of
`periodic_monitoring` from its start state, before round `n + 1`'s dispatch
the run has already performed round `n`'s completion (the receiver loop ended:
all of round `n`'s records were delivered and all its workers terminated) and
round `n`'s wake-up (the `interval` sleep elapsed after that completion). -/
theorem scheduler_rounds_never_overlap (initW : List Nat) (n : Nat)
    (ls₁ ls₂ : List Label) (s' : SchedState)
    (h : Run initW initState (ls₁ ++ Label.dispatch (n + 1) :: ls₂) s') :
    Label.complete n ∈ ls₁ ∧ Label.wake n ∈ ls₁ := by
  obtain ⟨t, t', h1, h2, h3⟩ := run_append_split ls₁ initState ls₂ s' _ h
  have hpt : progress t = 3 * (n + 1) := step_dispatch_progress h2
  have hinit : progress initState = 0 := rfl
  exact ⟨run_crossing_complete n initState ls₁ t h1 (by omega) (by omega),
    run_crossing_wake n initState ls₁ t h1 (by omega) (by omega)⟩

/-- Witness for C7: a concrete two-round run — one worker sends one record,
it is delivered, the worker finishes, the round completes, the scheduler
sleeps and wakes, and round 1 is dispatched; the theorem places round 0's
completion and wake-up before round 1's dispatch. -/
theorem scheduler_rounds_never_overlap_witness :
    Run [1] initState
      ([Label.dispatch 0, Label.send, Label.recv 0, Label.finish,
          Label.complete 0, Label.wake 0] ++ Label.dispatch (0 + 1) :: [])
      ⟨1, .drain, [1], 0⟩ ∧
    (Label.complete 0 ∈ [Label.dispatch 0, Label.send, Label.recv 0, Label.finish,
        Label.complete 0, Label.wake 0] ∧
      Label.wake 0 ∈ [Label.dispatch 0, Label.send, Label.recv 0, Label.finish,
        Label.complete 0, Label.wake 0]) :=
  have hrun : Run [1] initState
      ([Label.dispatch 0, Label.send, Label.recv 0, Label.finish,
          Label.complete 0, Label.wake 0] ++ Label.dispatch (0 + 1) :: [])
      ⟨1, .drain, [1], 0⟩ :=
    Run.cons (Step.dispatch 0)
      (Run.cons (Step.send 0 0 0 [] [])
        (Run.cons (Step.recv 0 0 [0])
          (Run.cons (Step.finish 0 0 [] [])
            (Run.cons (Step.complete 0)
              (Run.cons (Step.wake 0)
                (Run.cons (Step.dispatch 1) (Run.nil _)))))))
  ⟨hrun, scheduler_rounds_never_overlap [1] 0 _ _ _ hrun⟩

/-- C5 is false of the code: nothing validates the worker count, so with zero
workers the scheduler still proceeds into round 0 (and beyond): here is a run
of the model with `initW = []` (zero workers per round) that performs the
dispatch of round 0, completes the empty round, sleeps, and dispatches round 1
— it is never refused. -/
theorem zero_workers_round_proceeds :
    Run [] initState
      [Label.dispatch 0, Label.complete 0, Label.wake 0, Label.dispatch 1]
      ⟨1, .drain, [], 0⟩ :=
  Run.cons (Step.dispatch 0)
    (Run.cons (Step.complete 0)
      (Run.cons (Step.wake 0)
        (Run.cons (Step.dispatch 1) (Run.nil _))))

end Website
